import Mathlib

/-!
Verification of the AIS data relay pipeline (SUNET ais_data_relay).

This file gives a shallow embedding of the parts of the repository that the
verified claims are about, together with the theorems settling those claims:

- the Normalizer (AISRelayServer.normalize_ais_message in src/app/main.py),
- the coordinate validation and extraction used on the persistence path
  (is_valid_geo_point, _extract_coordinates, process_ais_message),
- the structured WebSocket broadcast with geographic filtering
  (GeographicBounds.contains and AISRelayServer.broadcast_ws in src/main.py),
- the bounded decoupling queue feeding the persistence workers,
- the downstream TCP authentication gate,
- the upstream login frame construction (plain and MD5/base64 hashed),
- the storage rotation and retention cleanup,
- the storage gateway (DatabaseManager in src/connector/database_unrestricted.py).

Python dictionaries holding decoded AIS fields are embedded as association
lists of string keys and dynamically typed values (PyVal below); Python float
values are embedded as rationals, which is faithful for the comparisons the
code performs on them.
-/

namespace AISRelay

/-- Dynamically typed values appearing in a decoded AIS message dictionary.
A decoded pyais sentence maps field names to ints, floats, strings, enum
instances, bytes or None; the Normalizer may additionally install a GeoJSON
point, a dictionary of the shape
  location maps to a dict with type "Point" and coordinates a list,
which is embedded here as the pPoint constructor carrying the coordinate
list. -/
inductive PyVal where
  | pInt (n : Int)
  | pFloat (q : ℚ)
  | pBool (b : Bool)
  | pStr (s : String)
  | pEnum (name : String)
  | pBytes (bs : List Nat)
  | pNone
  | pPoint (coords : List PyVal)

/-- An embedded Python dictionary with string keys: an association list in
insertion order, with at most one entry per key (Python dict semantics). -/
abbrev Entry : Type := List (String × PyVal)

/-- Lookup of a key in a dictionary (first matching entry). -/
def lookupKey (k : String) : Entry → Option PyVal
  | [] => none
  | (k', v) :: rest => if k' = k then some v else lookupKey k rest

/-- Python membership test: key in entry. -/
def containsKey (k : String) (e : Entry) : Bool :=
  (lookupKey k e).isSome

/-- Python del entry key: removes the entry for the key. -/
def eraseKey (k : String) : Entry → Entry
  | [] => []
  | (k', v) :: rest =>
      if k' = k then eraseKey k rest else (k', v) :: eraseKey k rest

/-- Python assignment entry key = v: replaces the value in place if the key
exists, otherwise appends the new entry at the end (dict insertion order). -/
def setKey (k : String) (v : PyVal) : Entry → Entry
  | [] => [(k, v)]
  | (k', v') :: rest =>
      if k' = k then (k, v) :: rest else (k', v') :: setKey k v rest

/-- Applying a key-dependent function to every value of a dictionary.  This is
the embedding of a Python loop over list(entry.keys()) that reassigns
entry key = f(key, entry.get(key)): on a dict (unique keys) such a loop is
exactly a value-wise map. -/
def mapVals (f : String → PyVal → PyVal) (e : Entry) : Entry :=
  e.map (fun p => (p.1, f p.1 p.2))

/-- Python entry.get(k): the value if present, else None. -/
def getField (e : Entry) (k : String) : PyVal :=
  (lookupKey k e).getD .pNone

/- Structural equality test on embedded Python values (used for the SQLite
key comparison in the storage gateway model). -/
mutual

def pyBeq : PyVal → PyVal → Bool
  | .pInt a, .pInt b => a == b
  | .pFloat a, .pFloat b => a == b
  | .pBool a, .pBool b => a == b
  | .pStr a, .pStr b => a == b
  | .pEnum a, .pEnum b => a == b
  | .pBytes a, .pBytes b => a == b
  | .pNone, .pNone => true
  | .pPoint a, .pPoint b => pyBeqList a b
  | _, _ => false

def pyBeqList : List PyVal → List PyVal → Bool
  | [], [] => true
  | a :: as, b :: bs => pyBeq a b && pyBeqList as bs
  | _, _ => false

end

/-- AISRelayServer.is_enum_instance: tests whether a value is an Enum
instance. -/
def is_enum_instance : PyVal → Bool
  | .pEnum _ => true
  | _ => false

/-- Python isinstance(v, (int, float)): int, float, and bool (bool is a
subclass of int in Python). -/
def isNumeric : PyVal → Bool
  | .pInt _ => true
  | .pFloat _ => true
  | .pBool _ => true
  | _ => false

/-- Python is None test. -/
def isNone : PyVal → Bool
  | .pNone => true
  | _ => false

/-- Python int.from_bytes(value, "big"): big-endian unsigned integer. -/
def intFromBytesBE (bs : List Nat) : Nat :=
  bs.foldl (fun a b => a * 256 + b) 0

/-- Python str(value) on a bytes object: the printable representation.  Only
its string-ness matters to the claims; printable ASCII bytes other than
backslash and the quote are rendered as characters, everything else as a
hex escape, matching the shape of the Python repr. -/
def bytesRepr (bs : List Nat) : String :=
  "b" ++ String.mk (bs.map (fun b => if 32 ≤ b ∧ b ≤ 126 then Char.ofNat b else Char.ofNat 63))

/-- The inner helper decode_bytes of normalize_ais_message: a bytes value at
key spare_1 or spare_2 becomes a big-endian unsigned integer, any other bytes
value becomes its string representation, and every non-bytes value is
returned unchanged. -/
def decode_bytes (value : PyVal) (key : String) : PyVal :=
  match value with
  | .pBytes bs =>
      if key = "spare_1" ∨ key = "spare_2" then .pInt (intFromBytesBE bs)
      else .pStr (bytesRepr bs)
  | v => v

/-- Conversion applied by the first pass of normalize_ais_message: an
enum-typed value is replaced by its symbolic name (entry.get(key).name),
every other value is kept. -/
def enumConv (v : PyVal) : PyVal :=
  if is_enum_instance v then
    match v with
    | .pEnum n => .pStr n
    | v => v
  else v

/-- First pass of normalize_ais_message: convert enum-like fields to
strings. -/
def enumStep (e : Entry) : Entry :=
  mapVals (fun _ v => enumConv v) e

/-- Second pass of normalize_ais_message: if both lat and lon keys are
present and both values are numeric, install the combined GeoJSON point under
the location key (coordinates list in lon, lat order) and delete the lat and
lon keys; otherwise leave the entry unchanged. -/
def locStep (e : Entry) : Entry :=
  if containsKey "lat" e && containsKey "lon" e then
    let lat := getField e "lat"
    let lon := getField e "lon"
    if isNumeric lat && isNumeric lon then
      eraseKey "lon" (eraseKey "lat" (setKey "location" (.pPoint [lon, lat]) e))
    else e
  else e

/-- Third pass of normalize_ais_message: decode the designated binary fields
spare_1, spare_2 and data in place. -/
def binsStep (e : Entry) : Entry :=
  mapVals
    (fun k v =>
      if k = "spare_1" ∨ k = "spare_2" ∨ k = "data" then decode_bytes v k else v)
    e

/-- AISRelayServer.normalize_ais_message (src/app/main.py lines 133 to 167):
copy the entry, convert enum fields to their names, fold a numeric lat/lon
pair into a single GeoJSON point, then decode the binary fields. -/
def normalize_ais_message (entry : Entry) : Entry :=
  binsStep (locStep (enumStep entry))

/-- Python truth value of an embedded value: zero numbers, empty strings,
empty bytes and None are falsy; a GeoJSON point dictionary always has the
two keys type and coordinates and is therefore truthy. -/
def pyTruthy : PyVal → Bool
  | .pInt n => decide (n ≠ 0)
  | .pFloat q => decide (q ≠ 0)
  | .pBool b => b
  | .pStr s => !s.isEmpty
  | .pEnum _ => true
  | .pBytes bs => !bs.isEmpty
  | .pNone => false
  | .pPoint _ => true

/-- Numeric reading of a value as used by Python order comparisons: ints,
floats and bools compare numerically, everything else has no numeric order
against a number (a comparison raises TypeError). -/
def asRat : PyVal → Option ℚ
  | .pInt n => some n
  | .pFloat q => some q
  | .pBool b => some (if b then 1 else 0)
  | _ => none

/-- Python order comparison a <= b; an error models the TypeError raised when
one side is not a number. -/
def pyLE (a b : PyVal) : Except Unit Bool :=
  match asRat a, asRat b with
  | some x, some y => .ok (decide (x ≤ y))
  | _, _ => .error ()

/-- AISRelayServer.is_valid_geo_point (src/app/main.py lines 169 to 174):
if lon and lat are both truthy, evaluate the chained comparison
-180 <= lon <= 180 and -90 <= lat <= 90 with Python short-circuiting;
otherwise return True.  Note the guard is the Python truth value of the
coordinates, not an is-not-None test: a zero coordinate makes the guard
false. -/
def is_valid_geo_point (lon lat : PyVal) : Except Unit Bool :=
  if pyTruthy lon && pyTruthy lat then do
    let b1 ← pyLE (.pInt (-180)) lon
    if !b1 then pure false else do
    let b2 ← pyLE lon (.pInt 180)
    if !b2 then pure false else do
    let b3 ← pyLE (.pInt (-90)) lat
    if !b3 then pure false else
    pyLE lat (.pInt 90)
  else pure true

/-- AISRelayServer._extract_coordinates (src/app/main.py lines 176 to 205):
read decoded.get("location", default empty dict), then its coordinates list
(default the two-element None list), take slots 0 and 1 (None when the list
is shorter), and when both are not None validate them with
is_valid_geo_point, raising when the validation returns False.  An error
value models the raised exception; it also covers the AttributeError raised
when the location value is not a dictionary. -/
def extract_coordinates (decoded : Entry) : Except Unit (PyVal × PyVal) := do
  let coords ← match lookupKey "location" decoded with
    | none => Except.ok [PyVal.pNone, PyVal.pNone]
    | some (.pPoint cs) => Except.ok cs
    | some _ => Except.error ()
  let lon := (coords.get? 0).getD .pNone
  let lat := (coords.get? 1).getD .pNone
  if !isNone lon && !isNone lat then do
    let valid ← is_valid_geo_point lon lat
    if valid then pure (lon, lat) else Except.error ()
  else
    pure (lon, lat)

/-- Row of the vessels table as produced by the keyword arguments that
process_ais_message passes to create_vessel. -/
structure VesselRow where
  mmsi : PyVal
  imo : PyVal
  ship_name : PyVal
  ship_type : PyVal

/-- Row of the vessel_states table as produced by the keyword arguments that
process_ais_message passes to create_vessel_state. -/
structure VesselStateRow where
  vessel_mmsi : PyVal
  latitude : PyVal
  longitude : PyVal
  speed : PyVal
  heading : PyVal
  course : PyVal
  draught : PyVal
  status : PyVal
  call_sign : PyVal
  destination : PyVal

/-- AISRelayServer.process_ais_message (src/app/main.py lines 265 to 317):
extract and validate the coordinates, then build the vessel identity row and
the vessel state row.  A returned pair models the two storage gateway calls
create_vessel and create_vessel_state being invoked with exactly these
fields; an error models the raised exception, which the db worker catches
and logs, so that neither storage call happens. -/
def process_ais_message (decoded : Entry) : Except Unit (VesselRow × VesselStateRow) := do
  let c ← extract_coordinates decoded
  let lon := c.1
  let lat := c.2
  let vessel : VesselRow :=
    { mmsi := getField decoded "mmsi"
      imo := getField decoded "imo"
      ship_name := getField decoded "shipname"
      ship_type := getField decoded "ship_type" }
  let vessel_state : VesselStateRow :=
    { vessel_mmsi := vessel.mmsi
      latitude := lat
      longitude := lon
      speed := getField decoded "speed"
      heading := getField decoded "heading"
      course := getField decoded "course"
      draught := getField decoded "draught"
      status := getField decoded "status"
      call_sign := getField decoded "callsign"
      destination := getField decoded "destination" }
  pure (vessel, vessel_state)

/-- The bounded decoupling queue (asyncio.Queue).  The application constructs
it with maxsize 200000; fullness follows the asyncio rule that a maxsize of
zero means unbounded. -/
structure BoundedQueue where
  maxsize : Nat
  items : List Entry

/-- asyncio.Queue.full: true when the maxsize is positive and the number of
queued items has reached it. -/
def BoundedQueue.isFull (q : BoundedQueue) : Bool :=
  decide (0 < q.maxsize) && decide (q.maxsize ≤ q.items.length)

/-- asyncio.Queue.put_nowait: enqueue without suspending; when the queue is
full it raises QueueFull immediately (the Bool is false) and leaves the queue
unchanged. -/
def BoundedQueue.put_nowait (q : BoundedQueue) (x : Entry) : BoundedQueue × Bool :=
  if q.isFull then (q, false)
  else ({ q with items := q.items ++ [x] }, true)

/-- The queue state plus the log of storage gateway calls already performed
by the persistence workers. -/
structure RelayState where
  queue : BoundedQueue
  persisted : List (VesselRow × VesselStateRow)

/-- The enqueue step of AISRelayServer.read_ais_data (src/app/main.py lines
396 to 400): db_queue.put_nowait in a try block whose QueueFull handler only
logs a warning and drops the message. -/
def ingest_enqueue (s : RelayState) (msg : Entry) : RelayState :=
  { s with queue := (s.queue.put_nowait msg).1 }

/-- One iteration of AISRelayServer.db_worker (src/app/main.py lines 493 to
507): dequeue one message and run process_ais_message on it; an exception is
logged and the worker continues, so a failed message adds nothing to the
persisted log. -/
def db_worker_step (s : RelayState) : RelayState :=
  match s.queue.items with
  | [] => s
  | m :: rest =>
      match process_ais_message m with
      | .ok rows =>
          { queue := { s.queue with items := rest }
            persisted := s.persisted ++ [rows] }
      | .error _ =>
          { queue := { s.queue with items := rest }
            persisted := s.persisted }

/-- Authentication configuration (src/app/configuration.py AuthConfig). -/
structure AuthConfig where
  web_username : String
  web_password : String
  tcp_username : String
  tcp_password : String
  enable_tcp_auth : Bool
  enable_web_auth : Bool

/-- AuthConfig.verify_tcp_credentials: constant-time comparison of both the
username and the password against the configured TCP credentials; the result
is their conjunction (the timing behavior of compare_digest is outside the
embedding, its result is string equality). -/
def AuthConfig.verify_tcp_credentials (cfg : AuthConfig) (username password : String) : Bool :=
  (username == cfg.tcp_username) && (password == cfg.tcp_password)

/-- What the TCP client supplies during the auth exchange, after the decode
and strip the server applies to each received line: either both lines arrive
within their timeouts, or a read times out. -/
inductive TcpAuthInput where
  | supplied (username password : String)
  | timeoutUsername
  | timeoutPassword (username : String)

/-- AISRelayServer.is_authenticated_tcp_client (src/app/main.py lines 427 to
468): with TCP auth disabled every connection is admitted without any
exchange; with auth enabled the prompts are written, the two lines are read,
and the reply is the success line exactly when verify_tcp_credentials
accepts, the failure line otherwise, the timeout line when a read timed out.
The result pair is the transcript written to the client and the admission
decision. -/
def is_authenticated_tcp_client (cfg : AuthConfig) (input : TcpAuthInput) :
    List String × Bool :=
  if !cfg.enable_tcp_auth then ([], true)
  else
    match input with
    | .supplied u p =>
        if cfg.verify_tcp_credentials u p then
          (["AUTH REQUIRED\r\nUsername: ", "Password: ", "AUTH SUCCESS\r\n"], true)
        else
          (["AUTH REQUIRED\r\nUsername: ", "Password: ", "AUTH FAILED\r\n"], false)
    | .timeoutUsername =>
        (["AUTH REQUIRED\r\nUsername: ", "AUTH TIMEOUT\r\n"], false)
    | .timeoutPassword _ =>
        (["AUTH REQUIRED\r\nUsername: ", "Password: ", "AUTH TIMEOUT\r\n"], false)

/-- The subscriber-set update of AISRelayServer.handle_tcp_client
(src/app/main.py lines 471 to 484): the writer is added to the raw TCP
subscriber set exactly when the auth gate admitted the connection.  The set
tcp_clients is embedded as a duplicate-free list; set.add appends only a
writer that is not yet a member. -/
def handle_tcp_client (cfg : AuthConfig) (input : TcpAuthInput)
    (clients : List Nat) (writer : Nat) : List Nat :=
  if (is_authenticated_tcp_client cfg input).2 then
    if writer ∈ clients then clients else clients ++ [writer]
  else clients

/- ------------------------------------------------------------------
Upstream login frames.  hashlib.md5 and base64.b64encode are embedded as
concrete executable implementations of the standard algorithms (RFC 1321
and RFC 4648), byte lists of values below 256.
------------------------------------------------------------------ -/

/-- The modulus of 32-bit machine words. -/
def w32 : Nat := 4294967296

/-- Left rotation of a 32-bit word by c places (c between 1 and 31). -/
def rotl32 (x c : Nat) : Nat :=
  (x % 2 ^ (32 - c)) * 2 ^ c + x / 2 ^ (32 - c)

/-- Bitwise complement within 32 bits. -/
def not32 (x : Nat) : Nat := x ^^^ (w32 - 1)

/-- MD5 per-round shift amounts. -/
def md5Shifts : List Nat :=
  [7, 12, 17, 22, 7, 12, 17, 22, 7, 12, 17, 22, 7, 12, 17, 22,
   5, 9, 14, 20, 5, 9, 14, 20, 5, 9, 14, 20, 5, 9, 14, 20,
   4, 11, 16, 23, 4, 11, 16, 23, 4, 11, 16, 23, 4, 11, 16, 23,
   6, 10, 15, 21, 6, 10, 15, 21, 6, 10, 15, 21, 6, 10, 15, 21]

/-- MD5 sine-derived additive constants. -/
def md5K : List Nat :=
  [0xd76aa478, 0xe8c7b756, 0x242070db, 0xc1bdceee,
   0xf57c0faf, 0x4787c62a, 0xa8304613, 0xfd469501,
   0x698098d8, 0x8b44f7af, 0xffff5bb1, 0x895cd7be,
   0x6b901122, 0xfd987193, 0xa679438e, 0x49b40821,
   0xf61e2562, 0xc040b340, 0x265e5a51, 0xe9b6c7aa,
   0xd62f105d, 0x02441453, 0xd8a1e681, 0xe7d3fbc8,
   0x21e1cde6, 0xc33707d6, 0xf4d50d87, 0x455a14ed,
   0xa9e3e905, 0xfcefa3f8, 0x676f02d9, 0x8d2a4c8a,
   0xfffa3942, 0x8771f681, 0x6d9d6122, 0xfde5380c,
   0xa4beea44, 0x4bdecfa9, 0xf6bb4b60, 0xbebfbc70,
   0x289b7ec6, 0xeaa127fa, 0xd4ef3085, 0x04881d05,
   0xd9d4d039, 0xe6db99e5, 0x1fa27cf8, 0xc4ac5665,
   0xf4292244, 0x432aff97, 0xab9423a7, 0xfc93a039,
   0x655b59c3, 0x8f0ccc92, 0xffeff47d, 0x85845dd1,
   0x6fa87e4f, 0xfe2ce6e0, 0xa3014314, 0x4e0811a1,
   0xf7537e82, 0xbd3af235, 0x2ad7d2bb, 0xeb86d391]

/-- Little-endian 32-bit word number j of a 64-byte chunk. -/
def leWord (chunk : List Nat) (j : Nat) : Nat :=
  chunk.getD (4 * j) 0 + 256 * chunk.getD (4 * j + 1) 0 +
    65536 * chunk.getD (4 * j + 2) 0 + 16777216 * chunk.getD (4 * j + 3) 0

/-- One of the 64 MD5 rounds on the running state (a, b, c, d). -/
def md5Round (chunk : List Nat) (st : Nat × Nat × Nat × Nat) (i : Nat) :
    Nat × Nat × Nat × Nat :=
  let a := st.1
  let b := st.2.1
  let c := st.2.2.1
  let d := st.2.2.2
  let fg : Nat × Nat :=
    if i < 16 then ((b &&& c) ||| (not32 b &&& d), i)
    else if i < 32 then ((d &&& b) ||| (not32 d &&& c), (5 * i + 1) % 16)
    else if i < 48 then (b ^^^ c ^^^ d, (3 * i + 5) % 16)
    else (c ^^^ (b ||| not32 d), (7 * i) % 16)
  let f2 := (fg.1 + a + md5K.getD i 0 + leWord chunk fg.2) % w32
  (d, (b + rotl32 f2 (md5Shifts.getD i 0)) % w32, b, c)

/-- MD5 compression of one 64-byte chunk into the state. -/
def md5ProcessChunk (st : Nat × Nat × Nat × Nat) (chunk : List Nat) :
    Nat × Nat × Nat × Nat :=
  let r := (List.range 64).foldl (md5Round chunk) st
  ((st.1 + r.1) % w32, (st.2.1 + r.2.1) % w32,
   (st.2.2.1 + r.2.2.1) % w32, (st.2.2.2 + r.2.2.2) % w32)

/-- Splitting a byte list into chunks of 64. -/
def chunks64 (l : List Nat) : List (List Nat) :=
  if h : l = [] then []
  else l.take 64 :: chunks64 (l.drop 64)
termination_by l.length
decreasing_by
  simp only [List.length_drop]
  exact Nat.sub_lt (List.length_pos.mpr h) (by norm_num)

/-- The n least significant bytes of a number, little endian. -/
def leBytes (n : Nat) (x : Nat) : List Nat :=
  (List.range n).map (fun i => x / 2 ^ (8 * i) % 256)

/-- MD5 padding: the 0x80 byte, zeros up to 56 modulo 64, then the bit length
as a 64-bit little-endian quantity. -/
def md5Pad (msg : List Nat) : List Nat :=
  let padZeros := (120 - (msg.length + 1) % 64) % 64
  msg ++ [128] ++ List.replicate padZeros 0 ++ leBytes 8 (msg.length * 8 % 2 ^ 64)

/-- hashlib.md5(msg).digest(): the 16-byte MD5 digest. -/
def md5 (msg : List Nat) : List Nat :=
  let st := (chunks64 (md5Pad msg)).foldl md5ProcessChunk
    (0x67452301, 0xefcdab89, 0x98badcfe, 0x10325476)
  leBytes 4 st.1 ++ leBytes 4 st.2.1 ++ leBytes 4 st.2.2.1 ++ leBytes 4 st.2.2.2

/-- The base64 alphabet of RFC 4648. -/
def b64chars : String :=
  "ABCDEFGHIJKLMNOPQRSTUVWXYZabcdefghijklmnopqrstuvwxyz0123456789+/"

/-- The ASCII code of base64 digit n. -/
def b64code (n : Nat) : Nat :=
  ((b64chars.data.get? n).getD 'A').toNat

/-- base64.b64encode: byte triples become four base64 digits, a trailing pair
or single byte is padded with the equals sign (ASCII 61). -/
def b64encodeBytes : List Nat → List Nat
  | b1 :: b2 :: b3 :: rest =>
      let n := b1 % 256 * 65536 + b2 % 256 * 256 + b3 % 256
      b64code (n / 262144) :: b64code (n / 4096 % 64) ::
        b64code (n / 64 % 64) :: b64code (n % 64) :: b64encodeBytes rest
  | [b1, b2] =>
      let n := b1 % 256 * 65536 + b2 % 256 * 256
      [b64code (n / 262144), b64code (n / 4096 % 64), b64code (n / 64 % 64), 61]
  | [b1] =>
      let n := b1 % 256 * 65536
      [b64code (n / 262144), b64code (n / 4096 % 64), 61, 61]
  | [] => []

/-- Python str.encode("ascii"): the code points as bytes; raises
UnicodeEncodeError on any code point of 128 or above. -/
def encodeAscii (s : String) : Except Unit (List Nat) :=
  if s.data.all (fun c => c.toNat < 128) then .ok (s.data.map Char.toNat)
  else .error ()

/-- UTF-8 encoding of one character. -/
def utf8EncodeChar (c : Char) : List Nat :=
  let n := c.toNat
  if n < 128 then [n]
  else if n < 2048 then [192 + n / 64, 128 + n % 64]
  else if n < 65536 then [224 + n / 4096, 128 + n / 64 % 64, 128 + n % 64]
  else [240 + n / 262144, 128 + n / 4096 % 64, 128 + n / 64 % 64, 128 + n % 64]

/-- Python str.encode("utf-8"). -/
def utf8Encode (s : String) : List Nat :=
  (s.data.map utf8EncodeChar).flatten

/-- Python bytes.decode("ascii") on bytes below 128: the character string of
the code points. -/
def asciiDecode (bs : List Nat) : String :=
  String.mk (bs.map Char.ofNat)

/-- Python bytearray.append: adds one byte (values are reduced modulo 256,
larger ints would raise). -/
def bytearrayAppend (m : List Nat) (b : Nat) : List Nat := m ++ [b % 256]

/-- Python bytearray.extend with a bytes value. -/
def bytearrayExtend (m : List Nat) (xs : List Nat) : List Nat := m ++ xs

/-- AISRelayServer.create_logon_msg (src/app/main.py lines 92 to 100): the
plain login frame, built by appending command id 1, the ASCII username, a
zero delimiter, the ASCII password, and a zero end mark to an empty
bytearray. -/
def create_logon_msg (ais_user ais_password : String) : Except Unit (List Nat) := do
  let u ← encodeAscii ais_user
  let p ← encodeAscii ais_password
  pure (bytearrayAppend
    (bytearrayExtend (bytearrayAppend (bytearrayExtend (bytearrayAppend [] 1) u) 0) p) 0)

/-- AISRelayServer.create_logon_msg_hashed (src/app/main.py lines 102 to
117): MD5 the UTF-8 password, base64 the digest, decode it to an ASCII
string, then build the frame with command id 2, the ASCII username, a zero
delimiter, the re-encoded base64 text and a zero end mark. -/
def create_logon_msg_hashed (ais_user ais_password : String) : Except Unit (List Nat) := do
  let md5_hash := md5 (utf8Encode ais_password)
  let password_encoded := asciiDecode (b64encodeBytes md5_hash)
  let u ← encodeAscii ais_user
  let pe ← encodeAscii password_encoded
  pure (bytearrayAppend
    (bytearrayExtend (bytearrayAppend (bytearrayExtend (bytearrayAppend [] 2) u) 0) pe) 0)

/- ------------------------------------------------------------------
Structured (WebSocket) broadcast with geographic filtering, from
src/main.py.
------------------------------------------------------------------ -/

/-- GeographicBounds (src/main.py lines 22 to 33). -/
structure GeographicBounds where
  min_lat : ℚ
  max_lat : ℚ
  min_lon : ℚ
  max_lon : ℚ

/-- GeographicBounds.contains: the chained comparisons
min_lat <= lat <= max_lat and min_lon <= lon <= max_lon. -/
def GeographicBounds.contains (b : GeographicBounds) (lat lon : ℚ) : Bool :=
  decide (b.min_lat ≤ lat) && decide (lat ≤ b.max_lat) &&
    decide (b.min_lon ≤ lon) && decide (lon ≤ b.max_lon)

/-- Outcome of the per-subscriber body of broadcast_ws: the report is sent,
the subscriber is skipped by the filter, or an exception occurred (in which
case broadcast_ws prunes the subscriber). -/
inductive WsOutcome where
  | sent
  | skipped
  | errored
  deriving DecidableEq

/-- The per-subscriber decision of AISRelayServer.broadcast_ws (src/main.py
lines 384 to 405): with no filter set the report is sent; with a filter set,
a missing or falsy location skips the subscriber, otherwise the coordinate
pair is unpacked (a malformed pair raises, pruning the subscriber) and the
report is sent exactly when the bounds contain (lat, lon). -/
def ws_send_decision (bounds : Option GeographicBounds) (message : Entry) : WsOutcome :=
  match bounds with
  | none => .sent
  | some b =>
      match lookupKey "location" message with
      | none => .skipped
      | some loc =>
          if !pyTruthy loc then .skipped
          else
            match loc with
            | .pPoint [plon, plat] =>
                match asRat plon, asRat plat with
                | some lon, some lat =>
                    if b.contains lat lon then .sent else .skipped
                | _, _ => .errored
            | _ => .errored

/-- AISRelayServer.broadcast_ws over the subscriber registry: the ids of the
subscribers to which the report is delivered. -/
def broadcast_ws (clients : List (Nat × Option GeographicBounds)) (message : Entry) :
    List Nat :=
  (clients.filter (fun c => ws_send_decision c.2 message = .sent)).map (fun c => c.1)

/- ------------------------------------------------------------------
Storage rotation and retention cleanup, from src/app/main.py.
------------------------------------------------------------------ -/

/-- AISRelayServer.get_new_db_name (src/app/main.py lines 80 to 83): the
date-stamped name with the 8-character UUID-derived suffix; the date string
and the suffix are external inputs (clock and random generator). -/
def get_new_db_name (date_str uuid_suffix : String) : String :=
  date_str ++ "_" ++ uuid_suffix ++ "_ais_db.db"

/-- The storage paths held by the server: the database directory, the name of
the live database inside it, and the name of the snapshot. -/
structure StoragePaths where
  db_dir : String
  live_name : String
  snapshot_name : String

/-- The full path of the live database, as the pair of directory and file
name (pathlib.Path equality is component-wise). -/
def livePath (s : StoragePaths) : String × String := (s.db_dir, s.live_name)

/-- AISRelayServer.reset_db (src/app/main.py lines 85 to 89): point LIVE_DB
at the freshly generated name and construct a new DatabaseManager on it. -/
def reset_db (s : StoragePaths) (newName : String) : StoragePaths :=
  { s with live_name := newName }

/-- Seconds in one week, the unit of datetime.timedelta(weeks). -/
def secondsPerWeek : Int := 604800

/-- The pattern of Path.glob with the star-dot-db pattern: the file name ends
in the .db suffix. -/
def matchesGlobDb (name : String) : Bool :=
  List.isSuffixOf (String.toList ".db") name.toList

/-- AISRelayServer.delete_old_database (src/app/main.py lines 215 to 248):
glob the .db files of the database directory, skip the live database and the
snapshot, and delete every remaining file whose modification time is before
now minus the retention window.  Files are modelled as pairs of name and
modification time (seconds); the function returns the surviving files. -/
def delete_old_database (s : StoragePaths) (now : Int) (weeks : Nat)
    (files : List (String × Int)) : List (String × Int) :=
  let cutoff := now - weeks * secondsPerWeek
  files.filter (fun f =>
    !(matchesGlobDb f.1 && !(f.1 == s.live_name || f.1 == s.snapshot_name) &&
        decide (f.2 < cutoff)))

/- ------------------------------------------------------------------
Storage gateway, from src/connector/database_unrestricted.py.
------------------------------------------------------------------ -/

/-- The two tables of the storage gateway. -/
structure Database where
  vessels : List VesselRow
  vessel_states : List VesselStateRow

/-- DatabaseManager.get_vessel: the vessels row with the given mmsi, if
any. -/
def get_vessel (db : Database) (mmsi : PyVal) : Option VesselRow :=
  db.vessels.find? (fun r => pyBeq r.mmsi mmsi)

/-- The SET clause of DatabaseManager.update_vessel: only fields whose new
value is not None are overwritten. -/
def mergeField (old new : PyVal) : PyVal :=
  if isNone new then old else new

/-- DatabaseManager.update_vessel: last-write-wins update of the non-None
static fields of the row keyed by mmsi. -/
def update_vessel (db : Database) (mmsi imo ship_name ship_type : PyVal) : Database :=
  { db with
    vessels := db.vessels.map (fun r =>
      if pyBeq r.mmsi mmsi then
        { r with
          imo := mergeField r.imo imo
          ship_name := mergeField r.ship_name ship_name
          ship_type := mergeField r.ship_type ship_type }
      else r) }

/-- DatabaseManager.create_vessel (src/connector/database_unrestricted.py
lines 122 to 131): update the existing row if the mmsi is already present,
otherwise insert a new row. -/
def create_vessel (db : Database) (mmsi imo ship_name ship_type : PyVal) : Database :=
  if (get_vessel db mmsi).isSome then update_vessel db mmsi imo ship_name ship_type
  else { db with vessels := db.vessels ++ [⟨mmsi, imo, ship_name, ship_type⟩] }

/-- DatabaseManager.create_vessel_state (src/connector/database_unrestricted.py
lines 166 to 193): if no vessels row with this mmsi exists, first create one
(with all static fields defaulted to None), then insert the state row. -/
def create_vessel_state (db : Database) (row : VesselStateRow) : Database :=
  let db1 :=
    if (get_vessel db row.vessel_mmsi).isSome then db
    else create_vessel db row.vessel_mmsi .pNone .pNone .pNone
  { db1 with vessel_states := db1.vessel_states ++ [row] }

/-- A vessels row with the given mmsi exists. -/
def vesselExists (db : Database) (mmsi : PyVal) : Bool :=
  (get_vessel db mmsi).isSome

/-- Referential integrity of the storage: every vessel state references an
existing vessels row. -/
def ReferentialIntegrity (db : Database) : Prop :=
  ∀ s ∈ db.vessel_states, vesselExists db s.vessel_mmsi = true

/-- The key-dependent conversion of the binary-field pass: decode_bytes on
the three designated keys, identity elsewhere. -/
def binsConv (k : String) (v : PyVal) : PyVal :=
  if k = "spare_1" ∨ k = "spare_2" ∨ k = "data" then decode_bytes v k else v

/-- Both coordinates lie in the valid ranges (longitude in -180 to 180,
latitude in -90 to 90); false when one is not numeric. -/
def coordsInRange (lon lat : PyVal) : Bool :=
  match asRat lon, asRat lat with
  | some lo, some la => decide (-180 ≤ lo ∧ lo ≤ 180 ∧ -90 ≤ la ∧ la ≤ 90)
  | _, _ => false

/- ==================================================================
Theorems.
================================================================== -/

theorem binsStep_eq_mapVals (e : Entry) : binsStep e = mapVals binsConv e := rfl

theorem lookupKey_mapVals (f : String → PyVal → PyVal) (k : String) (e : Entry) :
    lookupKey k (mapVals f e) = (lookupKey k e).map (f k) := by
  induction e with
  | nil => rfl
  | cons p rest ih =>
      obtain ⟨k', v⟩ := p
      by_cases h : k' = k
      · subst h
        simp [mapVals, lookupKey]
      · simp [mapVals, lookupKey, h] at ih ⊢
        exact ih

theorem containsKey_mapVals (f : String → PyVal → PyVal) (k : String) (e : Entry) :
    containsKey k (mapVals f e) = containsKey k e := by
  rw [containsKey, containsKey, lookupKey_mapVals]
  cases lookupKey k e <;> rfl

theorem lookupKey_eraseKey (k k' : String) (e : Entry) :
    lookupKey k (eraseKey k' e) = if k = k' then none else lookupKey k e := by
  induction e with
  | nil => by_cases h : k = k' <;> simp [eraseKey, lookupKey, h]
  | cons p rest ih =>
      obtain ⟨k0, v⟩ := p
      rw [eraseKey]
      by_cases h0 : k0 = k'
      · rw [if_pos h0, ih]
        by_cases hk : k = k'
        · simp [hk]
        · rw [if_neg hk, if_neg hk, lookupKey,
            if_neg (fun h => hk (h.symm.trans h0))]
      · rw [if_neg h0, lookupKey]
        by_cases hk0 : k0 = k
        · rw [if_pos hk0]
          have hkk : ¬(k = k') := fun h => h0 (hk0.trans h)
          rw [if_neg hkk, lookupKey, if_pos hk0]
        · rw [if_neg hk0, ih]
          by_cases hk : k = k'
          · simp [hk]
          · rw [if_neg hk, if_neg hk, lookupKey, if_neg hk0]

theorem containsKey_eraseKey (k k' : String) (e : Entry) :
    containsKey k (eraseKey k' e) = if k = k' then false else containsKey k e := by
  rw [containsKey, lookupKey_eraseKey]
  by_cases h : k = k' <;> simp [h, containsKey]

theorem lookupKey_setKey (k k' : String) (v : PyVal) (e : Entry) :
    lookupKey k' (setKey k v e) = if k' = k then some v else lookupKey k' e := by
  induction e with
  | nil =>
      rw [show setKey k v [] = [(k, v)] from rfl, lookupKey, lookupKey]
      by_cases h : k' = k
      · rw [if_pos h.symm, if_pos h]
      · rw [if_neg (fun hh => h hh.symm), if_neg h, lookupKey]
  | cons p rest ih =>
      obtain ⟨k0, v0⟩ := p
      rw [setKey]
      by_cases h0 : k0 = k
      · rw [if_pos h0, lookupKey, lookupKey]
        by_cases hk' : k' = k
        · rw [if_pos hk'.symm, if_pos hk']
        · rw [if_neg (fun h => hk' h.symm), if_neg hk',
            if_neg (fun h => hk' ((h0.symm.trans h).symm))]
      · rw [if_neg h0, lookupKey, lookupKey]
        by_cases hk0 : k0 = k'
        · rw [if_pos hk0, if_neg (fun h => h0 (hk0.trans h)), if_pos hk0]
        · rw [if_neg hk0, ih]
          by_cases hk : k' = k
          · simp [hk]
          · rw [if_neg hk, if_neg hk, if_neg hk0]

theorem mem_setKey (p : String × PyVal) (k : String) (v : PyVal) (e : Entry)
    (hp : p ∈ setKey k v e) : p = (k, v) ∨ p ∈ e := by
  induction e with
  | nil =>
      rw [show setKey k v [] = [(k, v)] from rfl] at hp
      exact Or.inl (List.mem_singleton.mp hp)
  | cons q rest ih =>
      obtain ⟨k0, v0⟩ := q
      rw [setKey] at hp
      by_cases h0 : k0 = k
      · rw [if_pos h0] at hp
        rcases List.mem_cons.mp hp with h | h
        · exact Or.inl h
        · exact Or.inr (List.mem_cons_of_mem _ h)
      · rw [if_neg h0] at hp
        rcases List.mem_cons.mp hp with h | h
        · exact Or.inr (List.mem_cons.mpr (Or.inl h))
        · rcases ih h with h2 | h2
          · exact Or.inl h2
          · exact Or.inr (List.mem_cons_of_mem _ h2)

theorem mem_eraseKey (p : String × PyVal) (k : String) (e : Entry)
    (hp : p ∈ eraseKey k e) : p ∈ e := by
  induction e with
  | nil => simp [eraseKey] at hp
  | cons q rest ih =>
      obtain ⟨k0, v0⟩ := q
      by_cases h0 : k0 = k
      · subst h0
        simp only [eraseKey, if_pos rfl] at hp
        exact List.mem_cons_of_mem _ (ih hp)
      · simp only [eraseKey, if_neg h0, List.mem_cons] at hp
        rcases hp with h | h
        · simp [h]
        · exact List.mem_cons_of_mem _ (ih h)

theorem is_enum_enumConv (v : PyVal) : is_enum_instance (enumConv v) = false := by
  cases v <;> rfl

theorem enumConv_of_not_enum (v : PyVal) (h : is_enum_instance v = false) :
    enumConv v = v := by
  cases v <;> simp [enumConv, is_enum_instance] at h ⊢

theorem isNumeric_enumConv (v : PyVal) : isNumeric (enumConv v) = isNumeric v := by
  cases v <;> rfl

theorem numeric_not_enum (v : PyVal) (h : isNumeric v = true) :
    is_enum_instance v = false := by
  cases v <;> simp [isNumeric, is_enum_instance] at h ⊢

theorem is_enum_decode_bytes (v : PyVal) (k : String) :
    is_enum_instance (decode_bytes v k) = is_enum_instance v := by
  cases v <;> try rfl
  case pBytes bs =>
    by_cases h : k = "spare_1" ∨ k = "spare_2" <;> simp [decode_bytes, h, is_enum_instance]

theorem is_enum_binsConv (v : PyVal) (k : String) :
    is_enum_instance (binsConv k v) = is_enum_instance v := by
  rw [binsConv]
  split
  · exact is_enum_decode_bytes v k
  · rfl

theorem decode_bytes_idem (v : PyVal) (k : String) :
    decode_bytes (decode_bytes v k) k = decode_bytes v k := by
  cases v <;> try rfl
  case pBytes bs =>
    by_cases h : k = "spare_1" ∨ k = "spare_2" <;> simp [decode_bytes, h]

theorem binsConv_idem (k : String) (v : PyVal) :
    binsConv k (binsConv k v) = binsConv k v := by
  rw [binsConv, binsConv]
  split
  · rw [decode_bytes_idem]
  · rfl

theorem binsConv_other (k : String) (v : PyVal) (h1 : k ≠ "spare_1")
    (h2 : k ≠ "spare_2") (h3 : k ≠ "data") : binsConv k v = v := by
  rw [binsConv, if_neg]
  rintro (h | h | h)
  · exact h1 h
  · exact h2 h
  · exact h3 h

theorem binsStep_idem (e : Entry) : binsStep (binsStep e) = binsStep e := by
  simp only [binsStep_eq_mapVals]
  unfold mapVals
  rw [List.map_map]
  apply List.map_congr_left
  intro p _
  simp only [Function.comp_apply, binsConv_idem]

theorem noEnum_enumStep (e : Entry) :
    ∀ p ∈ enumStep e, is_enum_instance p.2 = false := by
  intro p hp
  rw [enumStep, mapVals] at hp
  obtain ⟨q, _, rfl⟩ := List.mem_map.mp hp
  exact is_enum_enumConv q.2

theorem enumStep_eq_self (e : Entry)
    (h : ∀ p ∈ e, is_enum_instance p.2 = false) : enumStep e = e := by
  rw [enumStep, mapVals]
  conv_rhs => rw [show e = e.map id from (List.map_id e).symm]
  apply List.map_congr_left
  intro p hp
  rw [enumConv_of_not_enum p.2 (h p hp), id]

theorem locStep_eq (e : Entry) : locStep e =
    if containsKey "lat" e && containsKey "lon" e then
      if isNumeric (getField e "lat") && isNumeric (getField e "lon") then
        eraseKey "lon" (eraseKey "lat"
          (setKey "location" (.pPoint [getField e "lon", getField e "lat"]) e))
      else e
    else e := rfl

theorem noEnum_locStep (e : Entry)
    (h : ∀ p ∈ e, is_enum_instance p.2 = false) :
    ∀ p ∈ locStep e, is_enum_instance p.2 = false := by
  intro p hp
  rw [locStep_eq] at hp
  split at hp
  · split at hp
    · have h1 := mem_eraseKey _ _ _ (mem_eraseKey _ _ _ hp)
      rcases mem_setKey _ _ _ _ h1 with h2 | h2
      · rw [h2]
        rfl
      · exact h p h2
    · exact h p hp
  · exact h p hp

theorem noEnum_binsStep (e : Entry)
    (h : ∀ p ∈ e, is_enum_instance p.2 = false) :
    ∀ p ∈ binsStep e, is_enum_instance p.2 = false := by
  intro p hp
  rw [binsStep_eq_mapVals, mapVals] at hp
  obtain ⟨q, hq, rfl⟩ := List.mem_map.mp hp
  rw [is_enum_binsConv]
  exact h q hq

theorem getField_binsStep (e : Entry) (k : String) :
    getField (binsStep e) k = binsConv k (getField e k) := by
  rw [getField, getField, binsStep_eq_mapVals, lookupKey_mapVals]
  cases h : lookupKey k e
  · simp [binsConv, decode_bytes]
  · simp

theorem containsKey_binsStep (e : Entry) (k : String) :
    containsKey k (binsStep e) = containsKey k e := by
  rw [binsStep_eq_mapVals, containsKey_mapVals]

theorem getField_enumStep (e : Entry) (k : String) :
    getField (enumStep e) k = enumConv (getField e k) := by
  rw [getField, getField, enumStep, lookupKey_mapVals]
  cases lookupKey k e <;> rfl

theorem containsKey_enumStep (e : Entry) (k : String) :
    containsKey k (enumStep e) = containsKey k e := by
  rw [enumStep, containsKey_mapVals]

theorem containsKey_setKey (k k' : String) (v : PyVal) (e : Entry) :
    containsKey k' (setKey k v e) = if k' = k then true else containsKey k' e := by
  rw [containsKey, lookupKey_setKey]
  by_cases h : k' = k <;> simp [h, containsKey]

/-- Claim C9, building block: on an entry with no remaining enum values, no
remaining lat/lon key pair foldable, and no undecoded binary fields, each
pass of the Normalizer is the identity; this is established for the output
of a first Normalizer run below. -/
theorem c9_normalize_locStep_fix (e : Entry) :
    locStep (normalize_ais_message e) = normalize_ais_message e := by
  have hCdef : normalize_ais_message e = binsStep (locStep (enumStep e)) := rfl
  cases hlat : containsKey "lat" (enumStep e) with
  | false =>
      have hB : locStep (enumStep e) = enumStep e := by
        rw [locStep_eq, hlat]
        simp
      have hclat : containsKey "lat" (normalize_ais_message e) = false := by
        rw [hCdef, hB, containsKey_binsStep, hlat]
      rw [locStep_eq, hclat]
      simp
  | true =>
      cases hlon : containsKey "lon" (enumStep e) with
      | false =>
          have hB : locStep (enumStep e) = enumStep e := by
            rw [locStep_eq, hlat, hlon]
            simp
          have hclon : containsKey "lon" (normalize_ais_message e) = false := by
            rw [hCdef, hB, containsKey_binsStep, hlon]
          rw [locStep_eq, hclon]
          simp
      | true =>
          cases hnum : isNumeric (getField (enumStep e) "lat") &&
              isNumeric (getField (enumStep e) "lon") with
          | true =>
              have hB : locStep (enumStep e) = eraseKey "lon" (eraseKey "lat"
                  (setKey "location"
                    (.pPoint [getField (enumStep e) "lon", getField (enumStep e) "lat"])
                    (enumStep e))) := by
                rw [locStep_eq, hlat, hlon, hnum]
                simp
              have hclat : containsKey "lat" (normalize_ais_message e) = false := by
                rw [hCdef, hB, containsKey_binsStep, containsKey_eraseKey,
                  containsKey_eraseKey]
                simp
              rw [locStep_eq, hclat]
              simp
          | false =>
              have hB : locStep (enumStep e) = enumStep e := by
                rw [locStep_eq, hlat, hlon, hnum]
                simp
              have hclat : containsKey "lat" (normalize_ais_message e) = true := by
                rw [hCdef, hB, containsKey_binsStep, hlat]
              have hclon : containsKey "lon" (normalize_ais_message e) = true := by
                rw [hCdef, hB, containsKey_binsStep, hlon]
              have hglat : getField (normalize_ais_message e) "lat" =
                  getField (enumStep e) "lat" := by
                rw [hCdef, hB, getField_binsStep,
                  binsConv_other _ _ (by decide) (by decide) (by decide)]
              have hglon : getField (normalize_ais_message e) "lon" =
                  getField (enumStep e) "lon" := by
                rw [hCdef, hB, getField_binsStep,
                  binsConv_other _ _ (by decide) (by decide) (by decide)]
              rw [locStep_eq, hclat, hclon, hglat, hglon, hnum]
              simp

/-- Claim C9: normalize_ais_message is idempotent.  After one pass no value
of the entry is an enum instance (so the enum pass of a second run is the
identity), the lat and lon keys are either deleted by the fold or retained
with unchanged non-numeric values (so the fold of a second run does not
fire), and the designated binary fields are already decoded (so the binary
pass of a second run is the identity). -/
theorem c9_normalize_idempotent (e : Entry) :
    normalize_ais_message (normalize_ais_message e) = normalize_ais_message e := by
  have hCne : ∀ p ∈ normalize_ais_message e, is_enum_instance p.2 = false :=
    noEnum_binsStep _ (noEnum_locStep _ (noEnum_enumStep e))
  have h1 : enumStep (normalize_ais_message e) = normalize_ais_message e :=
    enumStep_eq_self _ hCne
  have h2 : locStep (normalize_ais_message e) = normalize_ais_message e :=
    c9_normalize_locStep_fix e
  have h3 : binsStep (normalize_ais_message e) = normalize_ais_message e := by
    conv_lhs => rw [normalize_ais_message]
    rw [binsStep_idem]
    rfl
  show binsStep (locStep (enumStep (normalize_ais_message e))) = normalize_ais_message e
  rw [h1, h2, h3]

/-- Claim C6: for every decoded entry in which both latitude and longitude
are numeric (and within range), the Normalizer output carries the single
combined geo-point field with coordinates in lon, lat order and no separate
lat/lon fields; and the fold happens only when both values are numeric (with
at least one non-numeric value the separate fields are retained). -/
theorem c6_normalizer_geopoint_fold :
    (∀ (e : Entry) (lat lon : PyVal),
      lookupKey "lat" e = some lat → lookupKey "lon" e = some lon →
      isNumeric lat = true → isNumeric lon = true →
      coordsInRange lon lat = true →
      lookupKey "location" (normalize_ais_message e) = some (.pPoint [lon, lat]) ∧
      containsKey "lat" (normalize_ais_message e) = false ∧
      containsKey "lon" (normalize_ais_message e) = false) ∧
    (∀ (e : Entry) (lat lon : PyVal),
      lookupKey "lat" e = some lat → lookupKey "lon" e = some lon →
      ¬(isNumeric lat = true ∧ isNumeric lon = true) →
      containsKey "lat" (normalize_ais_message e) = true ∧
      containsKey "lon" (normalize_ais_message e) = true) := by
  constructor
  · intro e lat lon hlat hlon hnlat hnlon _hrange
    have hglat : getField (enumStep e) "lat" = lat := by
      rw [getField_enumStep, getField, hlat, Option.getD_some,
        enumConv_of_not_enum _ (numeric_not_enum _ hnlat)]
    have hglon : getField (enumStep e) "lon" = lon := by
      rw [getField_enumStep, getField, hlon, Option.getD_some,
        enumConv_of_not_enum _ (numeric_not_enum _ hnlon)]
    have hclat : containsKey "lat" (enumStep e) = true := by
      rw [containsKey_enumStep, containsKey, hlat]
      rfl
    have hclon : containsKey "lon" (enumStep e) = true := by
      rw [containsKey_enumStep, containsKey, hlon]
      rfl
    have hB : locStep (enumStep e) = eraseKey "lon" (eraseKey "lat"
        (setKey "location" (.pPoint [lon, lat]) (enumStep e))) := by
      rw [locStep_eq, hclat, hclon, hglat, hglon, hnlat, hnlon]
      simp
    refine ⟨?_, ?_, ?_⟩
    · show lookupKey "location" (binsStep (locStep (enumStep e))) = _
      rw [hB, binsStep_eq_mapVals, lookupKey_mapVals, lookupKey_eraseKey,
        if_neg (by decide), lookupKey_eraseKey, if_neg (by decide),
        lookupKey_setKey, if_pos rfl, Option.map_some',
        binsConv_other _ _ (by decide) (by decide) (by decide)]
    · show containsKey "lat" (binsStep (locStep (enumStep e))) = false
      rw [hB, containsKey_binsStep, containsKey_eraseKey, if_neg (by decide),
        containsKey_eraseKey, if_pos rfl]
    · show containsKey "lon" (binsStep (locStep (enumStep e))) = false
      rw [hB, containsKey_binsStep, containsKey_eraseKey, if_pos rfl]
  · intro e lat lon hlat hlon hnot
    have hglat : getField (enumStep e) "lat" = enumConv lat := by
      rw [getField_enumStep, getField, hlat, Option.getD_some]
    have hglon : getField (enumStep e) "lon" = enumConv lon := by
      rw [getField_enumStep, getField, hlon, Option.getD_some]
    have hclat : containsKey "lat" (enumStep e) = true := by
      rw [containsKey_enumStep, containsKey, hlat]
      rfl
    have hclon : containsKey "lon" (enumStep e) = true := by
      rw [containsKey_enumStep, containsKey, hlon]
      rfl
    have hnum : (isNumeric (getField (enumStep e) "lat") &&
        isNumeric (getField (enumStep e) "lon")) = false := by
      rw [hglat, hglon, isNumeric_enumConv, isNumeric_enumConv]
      cases hb1 : isNumeric lat <;> cases hb2 : isNumeric lon <;> simp_all
    have hB : locStep (enumStep e) = enumStep e := by
      rw [locStep_eq, hclat, hclon, hnum]
      simp
    constructor
    · show containsKey "lat" (binsStep (locStep (enumStep e))) = true
      rw [hB, containsKey_binsStep, hclat]
    · show containsKey "lon" (binsStep (locStep (enumStep e))) = true
      rw [hB, containsKey_binsStep, hclon]

/-- Claim C6, witness: a concrete decoded entry with numeric in-range lat 57
and lon 18 is folded into the single geo-point field. -/
theorem c6_normalizer_geopoint_fold_witness :
    lookupKey "location" (normalize_ais_message
      [("mmsi", .pInt 1), ("lat", .pFloat 57), ("lon", .pFloat 18)]) =
        some (.pPoint [.pFloat 18, .pFloat 57]) ∧
    containsKey "lat" (normalize_ais_message
      [("mmsi", .pInt 1), ("lat", .pFloat 57), ("lon", .pFloat 18)]) = false ∧
    containsKey "lon" (normalize_ais_message
      [("mmsi", .pInt 1), ("lat", .pFloat 57), ("lon", .pFloat 18)]) = false :=
  c6_normalizer_geopoint_fold.1 _ _ _ rfl rfl rfl rfl (by decide)

/-- Claim C1, evaluation at the failing input: the claim states that a report
with both coordinates present and one of them out of range is rejected by
the persistence path; the code violates this whenever one coordinate is
zero, because is_valid_geo_point guards the range check with the Python
truth value of the coordinates.  For the report with coordinates 200 and 0
(longitude 200 outside the valid range, latitude 0 on the equator), the
extraction succeeds and both storage gateway calls are made.  The third
conjunct shows the contrast: with a nonzero in-range latitude the same
out-of-range longitude is rejected as the claim demands, isolating the bug
to the zero coordinate. -/
theorem c1_zero_coordinate_bypasses_validation :
    extract_coordinates
        [("mmsi", .pInt 123456789), ("location", .pPoint [.pFloat 200, .pFloat 0])] =
      .ok (.pFloat 200, .pFloat 0) ∧
    (process_ais_message
        [("mmsi", .pInt 123456789), ("location", .pPoint [.pFloat 200, .pFloat 0])]).isOk
      = true ∧
    extract_coordinates
        [("mmsi", .pInt 123456789), ("location", .pPoint [.pFloat 200, .pFloat 50])] =
      .error () :=
  ⟨rfl, rfl, rfl⟩

/-- The persistence step succeeds exactly when the coordinate extraction
does: extraction is the only fallible part of process_ais_message, and both
storage gateway calls follow it unconditionally. -/
theorem process_isOk_iff_extract_isOk (decoded : Entry) :
    (process_ais_message decoded).isOk = (extract_coordinates decoded).isOk := by
  rw [process_ais_message]
  cases h : extract_coordinates decoded <;>
    simp [h, Except.isOk, Except.toBool, Bind.bind, Except.bind, Pure.pure, Except.pure]

/-- Claim C2, counterexample: a report whose extracted coordinate pair has
exactly one non-missing component (a single-element coordinates list, so the
longitude is present and the latitude missing) is not rejected by
_extract_coordinates, contrary to the claim: extraction returns the pair
with None for the missing side, and process_ais_message succeeds, so both
storage gateway calls are made. -/
theorem c2_one_sided_pair_accepted_counterexample :
    extract_coordinates [("location", .pPoint [.pFloat 19])] =
      .ok (.pFloat 19, .pNone) ∧
    (process_ais_message [("location", .pPoint [.pFloat 19])]).isOk = true :=
  ⟨rfl, rfl⟩

/-- Claim C2 as amended: for every report whose extracted coordinate pair has
exactly one non-missing component, coordinate extraction does not reject the
report; it returns the pair with None for the missing component, and the
report reaches persistence (both storage gateway calls are made, storing the
missing coordinate as None). -/
theorem c2_one_sided_pair_passthrough (decoded : Entry) (cs : List PyVal)
    (hloc : lookupKey "location" decoded = some (.pPoint cs))
    (hone : isNone ((cs.get? 0).getD .pNone) ≠ isNone ((cs.get? 1).getD .pNone)) :
    extract_coordinates decoded =
      .ok ((cs.get? 0).getD .pNone, (cs.get? 1).getD .pNone) ∧
    (process_ais_message decoded).isOk = true := by
  have hex : extract_coordinates decoded =
      .ok ((cs.get? 0).getD .pNone, (cs.get? 1).getD .pNone) := by
    simp only [List.get?_eq_getElem?] at hone
    rw [extract_coordinates, hloc]
    simp [Bind.bind, Except.bind, Pure.pure, Except.pure]
    intro h0 h1
    rw [h0, h1] at hone
    exact absurd rfl hone
  refine ⟨hex, ?_⟩
  rw [process_isOk_iff_extract_isOk, hex]
  rfl

/-- Claim C2 as amended, witness: a concrete report whose coordinates list
carries None for the longitude and 57 for the latitude passes through
extraction unrejected and reaches persistence. -/
theorem c2_one_sided_pair_passthrough_witness :
    extract_coordinates [("location", .pPoint [.pNone, .pFloat 57])] =
      .ok (.pNone, .pFloat 57) ∧
    (process_ais_message [("location", .pPoint [.pNone, .pFloat 57])]).isOk = true :=
  c2_one_sided_pair_passthrough _ [.pNone, .pFloat 57] rfl (by decide)

theorem contains_eq_true_iff (b : GeographicBounds) (lat lon : ℚ) :
    b.contains lat lon = true ↔
      b.min_lat ≤ lat ∧ lat ≤ b.max_lat ∧ b.min_lon ≤ lon ∧ lon ≤ b.max_lon := by
  simp [GeographicBounds.contains, and_assoc]

/-- Claim C3: in the structured broadcast, an unset filter receives every
report; a set filter receives a report carrying coordinates exactly when the
bounding box contains them; a report lacking coordinates is never delivered
to a set filter; delivery over the registry matches the per-subscriber
decision; and the example bounds 56..58 / 18..21 match lat 57, lon 19 but
not lat 60, lon 19. -/
theorem c3_ws_geofilter :
    (∀ (msg : Entry), ws_send_decision none msg = .sent) ∧
    (∀ (b : GeographicBounds) (msg : Entry) (lon lat : ℚ),
      lookupKey "location" msg = some (.pPoint [.pFloat lon, .pFloat lat]) →
      (ws_send_decision (some b) msg = .sent ↔
        b.min_lat ≤ lat ∧ lat ≤ b.max_lat ∧ b.min_lon ≤ lon ∧ lon ≤ b.max_lon)) ∧
    (∀ (b : GeographicBounds) (msg : Entry),
      lookupKey "location" msg = none → ws_send_decision (some b) msg = .skipped) ∧
    (∀ (clients : List (Nat × Option GeographicBounds)) (msg : Entry)
      (c : Nat × Option GeographicBounds), c ∈ clients →
      ws_send_decision c.2 msg = .sent → c.1 ∈ broadcast_ws clients msg) ∧
    (∀ (clients : List (Nat × Option GeographicBounds)) (msg : Entry) (id : Nat),
      id ∈ broadcast_ws clients msg →
      ∃ p ∈ clients, p.1 = id ∧ ws_send_decision p.2 msg = .sent) ∧
    (ws_send_decision (some ⟨56, 58, 18, 21⟩)
        [("location", .pPoint [.pFloat 19, .pFloat 57])] = .sent ∧
      ws_send_decision (some ⟨56, 58, 18, 21⟩)
        [("location", .pPoint [.pFloat 19, .pFloat 60])] = .skipped) := by
  refine ⟨fun msg => rfl, ?_, ?_, ?_, ?_, rfl, rfl⟩
  · intro b msg lon lat hloc
    rw [ws_send_decision, hloc]
    simp only [pyTruthy, Bool.not_true, Bool.false_eq_true, if_false, asRat]
    rw [← contains_eq_true_iff]
    by_cases hc : b.contains lat lon <;> simp [hc]
  · intro b msg hloc
    rw [ws_send_decision, hloc]
  · intro clients msg c hc hsent
    rw [broadcast_ws]
    exact List.mem_map.mpr ⟨c, List.mem_filter.mpr ⟨hc, by simp [hsent]⟩, rfl⟩
  · intro clients msg id hid
    rw [broadcast_ws] at hid
    obtain ⟨c, hcf, rfl⟩ := List.mem_map.mp hid
    obtain ⟨hcm, hcp⟩ := List.mem_filter.mp hcf
    exact ⟨c, hcm, rfl, by simpa using hcp⟩

/-- Claim C3, witness: a subscriber with a set filter never receives a report
without coordinates, an unset filter receives it, and registry delivery
matches: the report reaches subscriber 1 (no filter) and not subscriber 2
(set filter). -/
theorem c3_ws_geofilter_witness :
    ws_send_decision (some ⟨56, 58, 18, 21⟩) [("mmsi", .pInt 7)] = .skipped ∧
    ws_send_decision none [("mmsi", .pInt 7)] = .sent ∧
    (1 : Nat) ∈ broadcast_ws [(1, none), (2, some ⟨56, 58, 18, 21⟩)] [("mmsi", .pInt 7)] :=
  ⟨c3_ws_geofilter.2.2.1 ⟨56, 58, 18, 21⟩ _ rfl,
   c3_ws_geofilter.1 _,
   c3_ws_geofilter.2.2.2.1 _ _ (1, none) (by simp) (c3_ws_geofilter.1 _)⟩

/-- Claim C4: enqueuing on a full decoupling queue is rejected immediately
(put_nowait returns the unchanged queue and the QueueFull flag), the
ingestion step leaves the whole relay state unchanged, every future worker
trajectory is the same as if the message had never arrived, and the dropped
message is not in the queue, hence never persisted. -/
theorem c4_full_queue_drop (s : RelayState) (msg : Entry) (n : Nat)
    (hfull : s.queue.isFull = true) :
    s.queue.put_nowait msg = (s.queue, false) ∧
    ingest_enqueue s msg = s ∧
    db_worker_step^[n] (ingest_enqueue s msg) = db_worker_step^[n] s ∧
    (msg ∉ s.queue.items → msg ∉ (ingest_enqueue s msg).queue.items) := by
  have h0 : s.queue.put_nowait msg = (s.queue, false) := by
    rw [BoundedQueue.put_nowait, if_pos hfull]
  have h1 : ingest_enqueue s msg = s := by
    rw [ingest_enqueue, h0]
  exact ⟨h0, h1, by rw [h1], by rw [h1]; exact id⟩

/-- Claim C4, witness: a queue of capacity one holding one entry is full; a
second entry is dropped, the state is unchanged, and the dropped entry is
not queued. -/
theorem c4_full_queue_drop_witness :
    BoundedQueue.put_nowait ⟨1, [[("mmsi", PyVal.pInt 1)]]⟩ [("mmsi", PyVal.pInt 2)] =
      (⟨1, [[("mmsi", PyVal.pInt 1)]]⟩, false) ∧
    ingest_enqueue ⟨⟨1, [[("mmsi", PyVal.pInt 1)]]⟩, []⟩ [("mmsi", PyVal.pInt 2)] =
      ⟨⟨1, [[("mmsi", PyVal.pInt 1)]]⟩, []⟩ ∧
    db_worker_step^[3]
        (ingest_enqueue ⟨⟨1, [[("mmsi", PyVal.pInt 1)]]⟩, []⟩ [("mmsi", PyVal.pInt 2)]) =
      db_worker_step^[3] ⟨⟨1, [[("mmsi", PyVal.pInt 1)]]⟩, []⟩ ∧
    ([("mmsi", PyVal.pInt 2)] ∉
        (⟨⟨1, [[("mmsi", PyVal.pInt 1)]]⟩, []⟩ : RelayState).queue.items →
      [("mmsi", PyVal.pInt 2)] ∉
        (ingest_enqueue ⟨⟨1, [[("mmsi", PyVal.pInt 1)]]⟩, []⟩
          [("mmsi", PyVal.pInt 2)]).queue.items) :=
  c4_full_queue_drop ⟨⟨1, [[("mmsi", PyVal.pInt 1)]]⟩, []⟩ [("mmsi", PyVal.pInt 2)] 3 rfl

/-- Claim C5: with downstream TCP auth enabled, a connection supplying the
configured credentials within the timeout is answered with the success
status line and added to the raw subscriber set exactly once; a connection
supplying wrong credentials is answered with the failure status line and is
never added. -/
theorem c5_tcp_auth_gate (cfg : AuthConfig) (u p : String) (w : Nat)
    (clients : List Nat) (henabled : cfg.enable_tcp_auth = true) :
    ((u = cfg.tcp_username ∧ p = cfg.tcp_password) →
      is_authenticated_tcp_client cfg (.supplied u p) =
        (["AUTH REQUIRED\r\nUsername: ", "Password: ", "AUTH SUCCESS\r\n"], true) ∧
      (w ∉ clients →
        (handle_tcp_client cfg (.supplied u p) clients w).count w = 1) ∧
      w ∈ handle_tcp_client cfg (.supplied u p) clients w) ∧
    (¬(u = cfg.tcp_username ∧ p = cfg.tcp_password) →
      is_authenticated_tcp_client cfg (.supplied u p) =
        (["AUTH REQUIRED\r\nUsername: ", "Password: ", "AUTH FAILED\r\n"], false) ∧
      handle_tcp_client cfg (.supplied u p) clients w = clients ∧
      (w ∉ clients → w ∉ handle_tcp_client cfg (.supplied u p) clients w)) := by
  have hver : cfg.verify_tcp_credentials u p = true ↔
      (u = cfg.tcp_username ∧ p = cfg.tcp_password) := by
    simp [AuthConfig.verify_tcp_credentials]
  constructor
  · intro hcred
    have hv : cfg.verify_tcp_credentials u p = true := hver.mpr hcred
    have hauth : is_authenticated_tcp_client cfg (.supplied u p) =
        (["AUTH REQUIRED\r\nUsername: ", "Password: ", "AUTH SUCCESS\r\n"], true) := by
      rw [is_authenticated_tcp_client, henabled]
      simp [hv]
    refine ⟨hauth, ?_, ?_⟩
    · intro hw
      rw [handle_tcp_client, hauth, if_pos rfl, if_neg hw]
      simp [List.count_append, List.count_eq_zero.mpr hw]
    · rw [handle_tcp_client, hauth, if_pos rfl]
      by_cases hw : w ∈ clients <;> simp [hw]
  · intro hncred
    have hv : cfg.verify_tcp_credentials u p = false := by
      cases hvv : cfg.verify_tcp_credentials u p
      · rfl
      · exact absurd (hver.mp hvv) hncred
    have hauth : is_authenticated_tcp_client cfg (.supplied u p) =
        (["AUTH REQUIRED\r\nUsername: ", "Password: ", "AUTH FAILED\r\n"], false) := by
      rw [is_authenticated_tcp_client, henabled]
      simp [hv]
    have hcl : handle_tcp_client cfg (.supplied u p) clients w = clients := by
      rw [handle_tcp_client, hauth]
      simp
    exact ⟨hauth, hcl, by rw [hcl]; exact id⟩

/-- Claim C5, witness: with the configured TCP credentials admin and 1234,
supplying them admits the fresh connection exactly once and supplying a
wrong password leaves the subscriber set empty. -/
theorem c5_tcp_auth_gate_witness :
    (handle_tcp_client ⟨"wu", "wp", "admin", "1234", true, true⟩
        (.supplied "admin" "1234") [] 5).count 5 = 1 ∧
    handle_tcp_client ⟨"wu", "wp", "admin", "1234", true, true⟩
        (.supplied "admin" "wrong") [] 5 = [] :=
  ⟨((c5_tcp_auth_gate ⟨"wu", "wp", "admin", "1234", true, true⟩ "admin" "1234" 5 []
      rfl).1 ⟨rfl, rfl⟩).2.1 (by simp),
   ((c5_tcp_auth_gate ⟨"wu", "wp", "admin", "1234", true, true⟩ "admin" "wrong" 5 []
      rfl).2 (fun h => absurd h.2 (by decide))).2.1⟩

theorem b64chars_all_ascii : ∀ c ∈ b64chars.data, c.toNat < 128 := by decide

theorem char_toNat_ofNat_small (b : Nat) (h : b < 128) : (Char.ofNat b).toNat = b := by
  have hv : Nat.isValidChar b := Or.inl (by omega)
  simp [Char.ofNat, hv, Char.ofNatAux, Char.toNat, UInt32.toNat, BitVec.toNat_ofNatLt]

theorem b64code_lt (n : Nat) : b64code n < 128 := by
  rw [b64code]
  cases h : b64chars.data.get? n with
  | none => decide
  | some c =>
      rw [Option.getD_some]
      exact b64chars_all_ascii c (List.get?_mem h)

theorem b64encodeBytes_all_lt (bs : List Nat) : ∀ x ∈ b64encodeBytes bs, x < 128 := by
  induction bs using b64encodeBytes.induct with
  | case1 b1 b2 b3 rest ih =>
      intro x hx
      simp only [b64encodeBytes, List.mem_cons] at hx
      rcases hx with rfl | rfl | rfl | rfl | hx
      · exact b64code_lt _
      · exact b64code_lt _
      · exact b64code_lt _
      · exact b64code_lt _
      · exact ih x hx
  | case2 b1 b2 =>
      intro x hx
      simp only [b64encodeBytes, List.mem_cons] at hx
      rcases hx with rfl | rfl | rfl | rfl | hx
      · exact b64code_lt _
      · exact b64code_lt _
      · exact b64code_lt _
      · omega
      · simp at hx
  | case3 b1 =>
      intro x hx
      simp only [b64encodeBytes, List.mem_cons] at hx
      rcases hx with rfl | rfl | rfl | rfl | hx
      · exact b64code_lt _
      · exact b64code_lt _
      · omega
      · omega
      · simp at hx
  | case4 =>
      intro x hx
      simp [b64encodeBytes] at hx

theorem encodeAscii_asciiDecode (bs : List Nat) (h : ∀ x ∈ bs, x < 128) :
    encodeAscii (asciiDecode bs) = .ok bs := by
  have hdata : (asciiDecode bs).data = bs.map Char.ofNat := rfl
  rw [encodeAscii, hdata]
  have hall : ((bs.map Char.ofNat).all fun c => decide (c.toNat < 128)) = true := by
    rw [List.all_eq_true]
    intro c hc
    obtain ⟨b, hb, rfl⟩ := List.mem_map.mp hc
    simp [char_toNat_ofNat_small b (h b hb), h b hb]
  rw [if_pos hall, List.map_map]
  have : bs.map (Char.toNat ∘ Char.ofNat) = bs := by
    conv_rhs => rw [← List.map_id bs]
    apply List.map_congr_left
    intro b hb
    simp [char_toNat_ofNat_small b (h b hb)]
  rw [this]

/-- Claim C7: the plain login frame is exactly the bytes 0x01, username,
0x00, password, 0x00, and the hashed login frame is exactly 0x02, username,
0x00, the base64 encoding of the MD5 digest of the password, 0x00 (md5 and
b64encodeBytes are the executable embeddings of hashlib.md5 and
base64.b64encode). -/
theorem c7_login_frames (user pass : String)
    (huser : (user.data.all fun c => decide (c.toNat < 128)) = true)
    (hpass : (pass.data.all fun c => decide (c.toNat < 128)) = true) :
    create_logon_msg user pass =
      .ok ([1] ++ user.data.map Char.toNat ++ [0] ++ pass.data.map Char.toNat ++ [0]) ∧
    create_logon_msg_hashed user pass =
      .ok ([2] ++ user.data.map Char.toNat ++ [0] ++
        b64encodeBytes (md5 (utf8Encode pass)) ++ [0]) := by
  have hu : encodeAscii user = .ok (user.data.map Char.toNat) := by
    rw [encodeAscii, if_pos huser]
  have hp : encodeAscii pass = .ok (pass.data.map Char.toNat) := by
    rw [encodeAscii, if_pos hpass]
  have hpe : encodeAscii (asciiDecode (b64encodeBytes (md5 (utf8Encode pass)))) =
      .ok (b64encodeBytes (md5 (utf8Encode pass))) :=
    encodeAscii_asciiDecode _ (b64encodeBytes_all_lt _)
  constructor
  · rw [create_logon_msg, hu, hp]
    simp [Bind.bind, Except.bind, Pure.pure, Except.pure, bytearrayAppend,
      bytearrayExtend]
  · rw [create_logon_msg_hashed, hu, hpe]
    simp [Bind.bind, Except.bind, Pure.pure, Except.pure, bytearrayAppend,
      bytearrayExtend]

/-- Claim C7, witness: the frames for the concrete credentials user and
pass. -/
theorem c7_login_frames_witness :
    create_logon_msg "user" "pass" =
      .ok ([1] ++ "user".data.map Char.toNat ++ [0] ++ "pass".data.map Char.toNat ++ [0]) ∧
    create_logon_msg_hashed "user" "pass" =
      .ok ([2] ++ "user".data.map Char.toNat ++ [0] ++
        b64encodeBytes (md5 (utf8Encode "pass")) ++ [0]) :=
  c7_login_frames "user" "pass" (by decide) (by decide)

/-- Claim C8: the rotation step yields a live database path distinct from
the prior one whenever the freshly generated name differs from the old one
(the name carries the date and a random UUID-derived suffix), and the
cleanup retains exactly those files that are not deletable: a stored .db
artifact is removed if and only if it is neither the live database nor the
snapshot and its modification time is older than the retention cutoff of
now minus the window of whole weeks. -/
theorem c8_rotation_and_retention :
    (∀ (s : StoragePaths) (newName : String), newName ≠ s.live_name →
      livePath (reset_db s newName) ≠ livePath s) ∧
    (∀ (s : StoragePaths) (now : Int) (weeks : Nat) (files : List (String × Int))
      (f : String × Int), f ∈ files →
      (f ∈ delete_old_database s now weeks files ↔
        ¬(matchesGlobDb f.1 = true ∧ f.1 ≠ s.live_name ∧ f.1 ≠ s.snapshot_name ∧
          f.2 < now - weeks * secondsPerWeek))) := by
  constructor
  · intro s newName hne hcontra
    exact hne (congrArg Prod.snd hcontra)
  · intro s now weeks files f hf
    rw [delete_old_database, List.mem_filter]
    simp only [hf, true_and]
    cases h1 : matchesGlobDb f.1 <;>
      cases h2 : f.1 == s.live_name <;>
        cases h3 : f.1 == s.snapshot_name <;>
          by_cases h4 : f.2 < now - weeks * secondsPerWeek <;>
            simp_all

/-- Claim C8, witness: rotating to a differently named database changes the
live path; with the retention window of one week, an old .db artifact is
deleted and a recent one is retained. -/
theorem c8_rotation_and_retention_witness :
    livePath (reset_db ⟨"database", "2025-01-01_aaaa_ais_db.db", "ais_snapshot.db"⟩
        "2025-01-02_bbbb_ais_db.db") ≠
      livePath ⟨"database", "2025-01-01_aaaa_ais_db.db", "ais_snapshot.db"⟩ ∧
    ("old_ais_db.db", (0 : Int)) ∉
      delete_old_database ⟨"database", "live.db", "snap.db"⟩ 700000 1
        [("old_ais_db.db", 0)] ∧
    ("new_ais_db.db", (650000 : Int)) ∈
      delete_old_database ⟨"database", "live.db", "snap.db"⟩ 700000 1
        [("new_ais_db.db", 650000)] :=
  ⟨c8_rotation_and_retention.1 _ _ (by decide),
   fun hmem =>
     (c8_rotation_and_retention.2 ⟨"database", "live.db", "snap.db"⟩ 700000 1
       [("old_ais_db.db", 0)] _ (by simp)).mp hmem (by decide),
   (c8_rotation_and_retention.2 ⟨"database", "live.db", "snap.db"⟩ 700000 1
       [("new_ais_db.db", 650000)] _ (by simp)).mpr (by decide)⟩

theorem find?_isSome_map_mmsi (l : List VesselRow) (f : VesselRow → VesselRow)
    (hf : ∀ r, (f r).mmsi = r.mmsi) (m : PyVal) :
    ((l.map f).find? fun r => pyBeq r.mmsi m).isSome =
      (l.find? fun r => pyBeq r.mmsi m).isSome := by
  induction l with
  | nil => rfl
  | cons r rest ih =>
      rw [List.map_cons]
      cases hb : pyBeq r.mmsi m
      · rw [List.find?_cons_of_neg _ (by simp [hf r, hb]),
          List.find?_cons_of_neg _ (by simp [hb]), ih]
      · rw [List.find?_cons_of_pos _ (by simp [hf r, hb]),
          List.find?_cons_of_pos _ (by simp [hb])]
        rfl

mutual

theorem pyBeq_refl : ∀ v : PyVal, pyBeq v v = true
  | .pInt _ => by simp [pyBeq]
  | .pFloat _ => by simp [pyBeq]
  | .pBool _ => by simp [pyBeq]
  | .pStr _ => by simp [pyBeq]
  | .pEnum _ => by simp [pyBeq]
  | .pBytes _ => by simp [pyBeq]
  | .pNone => by simp [pyBeq]
  | .pPoint cs => by simp [pyBeq, pyBeqList_refl cs]

theorem pyBeqList_refl : ∀ l : List PyVal, pyBeqList l l = true
  | [] => by simp [pyBeqList]
  | a :: as => by simp [pyBeqList, pyBeq_refl a, pyBeqList_refl as]

end

theorem find?_isSome_append_singleton (l : List VesselRow) (x : VesselRow)
    (m : PyVal) :
    ((l ++ [x]).find? fun r => pyBeq r.mmsi m).isSome =
      ((l.find? fun r => pyBeq r.mmsi m).isSome || pyBeq x.mmsi m) := by
  induction l with
  | nil =>
      rw [List.nil_append]
      cases hb : pyBeq x.mmsi m
      · rw [List.find?_cons_of_neg _ (by simp [hb])]
        rfl
      · rw [List.find?_cons_of_pos _ (by simp [hb])]
        rfl
  | cons r rest ih =>
      rw [List.cons_append]
      cases hb : pyBeq r.mmsi m
      · rw [List.find?_cons_of_neg _ (by simp [hb]),
          List.find?_cons_of_neg _ (by simp [hb]), ih]
      · rw [List.find?_cons_of_pos _ (by simp [hb]),
          List.find?_cons_of_pos _ (by simp [hb])]
        simp

theorem vesselExists_update_vessel (db : Database) (m i sn st m' : PyVal) :
    vesselExists (update_vessel db m i sn st) m' = vesselExists db m' := by
  rw [vesselExists, vesselExists, get_vessel, get_vessel, update_vessel]
  exact find?_isSome_map_mmsi db.vessels _
    (fun r => by by_cases hr : pyBeq r.mmsi m <;> simp [hr]) m'

theorem vesselExists_create_vessel_self (db : Database) (m i sn st : PyVal) :
    vesselExists (create_vessel db m i sn st) m = true := by
  rw [create_vessel]
  by_cases h : (get_vessel db m).isSome
  · rw [if_pos h, vesselExists_update_vessel]
    exact h
  · rw [if_neg h, vesselExists, get_vessel]
    show ((db.vessels ++ [(⟨m, i, sn, st⟩ : VesselRow)]).find?
      fun r : VesselRow => pyBeq r.mmsi m).isSome = true
    rw [find?_isSome_append_singleton]
    simp [pyBeq_refl]

theorem vesselExists_create_vessel_mono (db : Database) (m i sn st m' : PyVal)
    (h : vesselExists db m' = true) :
    vesselExists (create_vessel db m i sn st) m' = true := by
  rw [create_vessel]
  by_cases hex : (get_vessel db m).isSome
  · rw [if_pos hex, vesselExists_update_vessel]
    exact h
  · rw [if_neg hex, vesselExists, get_vessel]
    show ((db.vessels ++ [(⟨m, i, sn, st⟩ : VesselRow)]).find?
      fun r : VesselRow => pyBeq r.mmsi m').isSome = true
    rw [find?_isSome_append_singleton]
    rw [vesselExists, get_vessel] at h
    simp [h]

theorem create_vessel_vessel_states (db : Database) (m i sn st : PyVal) :
    (create_vessel db m i sn st).vessel_states = db.vessel_states := by
  rw [create_vessel]
  by_cases h : (get_vessel db m).isSome <;> simp [h, update_vessel]

theorem create_vessel_state_eq (db : Database) (row : VesselStateRow) :
    create_vessel_state db row =
      if (get_vessel db row.vessel_mmsi).isSome then
        { db with vessel_states := db.vessel_states ++ [row] }
      else
        { create_vessel db row.vessel_mmsi .pNone .pNone .pNone with
          vessel_states :=
            (create_vessel db row.vessel_mmsi .pNone .pNone .pNone).vessel_states
              ++ [row] } := by
  rw [create_vessel_state]
  by_cases h : (get_vessel db row.vessel_mmsi).isSome <;> simp [h]

/-- Claim C10: create_vessel_state preserves referential integrity.  Before
inserting the state row it checks whether a vessels row with the same mmsi
exists and creates one if absent, so under the integrity invariant every
state row of the resulting storage, including the inserted one, references
an existing vessels row. -/
theorem c10_create_vessel_state_integrity (db : Database) (row : VesselStateRow)
    (hint : ReferentialIntegrity db) :
    ReferentialIntegrity (create_vessel_state db row) ∧
    vesselExists (create_vessel_state db row) row.vessel_mmsi = true := by
  rw [create_vessel_state_eq]
  by_cases h : (get_vessel db row.vessel_mmsi).isSome
  · rw [if_pos h]
    constructor
    · intro s hs
      rcases List.mem_append.mp hs with hs | hs
      · exact hint s hs
      · rw [List.mem_singleton.mp hs]
        exact h
    · exact h
  · rw [if_neg h]
    constructor
    · intro s hs
      rcases List.mem_append.mp hs with hs | hs
      · rw [create_vessel_vessel_states] at hs
        exact vesselExists_create_vessel_mono db _ _ _ _ _ (hint s hs)
      · rw [List.mem_singleton.mp hs]
        exact vesselExists_create_vessel_self db _ _ _ _
    · exact vesselExists_create_vessel_self db _ _ _ _

/-- Claim C10, witness: inserting a state row for mmsi 123456789 into the
empty storage creates the missing vessels row, so the result satisfies
referential integrity and the referenced vessel exists. -/
theorem c10_create_vessel_state_integrity_witness :
    ReferentialIntegrity (create_vessel_state ⟨[], []⟩
      ⟨.pInt 123456789, .pFloat 57, .pFloat 18, .pNone, .pNone, .pNone, .pNone,
        .pNone, .pNone, .pNone⟩) ∧
    vesselExists (create_vessel_state ⟨[], []⟩
      ⟨.pInt 123456789, .pFloat 57, .pFloat 18, .pNone, .pNone, .pNone, .pNone,
        .pNone, .pNone, .pNone⟩) (.pInt 123456789) = true :=
  c10_create_vessel_state_integrity ⟨[], []⟩ _
    (fun s hs => absurd hs (List.not_mem_nil s))

end AISRelay
